import Mathlib

/-!
Verification development for the detectem detection pipeline
(`detectem/core.py`): entry classification, matcher-group routing,
the three matching passes, hint cascading, file-hash version upgrade
and the splash pass.

The `Detector` methods of `detectem/core.py` are embedded as pure
functions.  External collaborators (the matcher strategies, the plugin
registry, `urllib.parse.urljoin`, `hashlib.sha256`, the
most-complete-version reducer) are abstracted as function parameters or
spec-modelled structures; everything else follows the source line by
line.
-/

namespace Detectem

/-- Entry classification tags (`MAIN_ENTRY`, `RESOURCE_ENTRY`,
`INLINE_SCRIPT_ENTRY` from `detectem/settings.py`; the three are distinct
string constants, modelled as an enumeration). -/
inductive EntryType
  | main
  | resource
  | inlineScript
  deriving DecidableEq, Repr

/-- Raw har entry as consumed by `Detector`: request URL, response URL,
response headers (ordered name/value pairs) and response body text. -/
structure Entry where
  requestUrl : String
  responseUrl : String
  responseHeaders : List (String × String)
  bodyText : String
  deriving DecidableEq, Repr

/-- Entry together with its `detectem.type` tag
(`Detector._set_entry_type` / `_get_entry_type`). -/
structure TaggedEntry where
  entry : Entry
  dtype : EntryType
  deriving DecidableEq, Repr

/-- Tag a raw entry (`Detector._set_entry_type` on an untagged entry). -/
def tagEntry (t : EntryType) (e : Entry) : TaggedEntry := ⟨e, t⟩

/-- Re-tag a tagged entry (`Detector._set_entry_type` on a tagged entry). -/
def setEntryType (t : EntryType) (e : TaggedEntry) : TaggedEntry :=
  { e with dtype := t }

/-- Python truthiness for an optional string: `None` and `''` are falsy. -/
def strTruthy : Option String → Option String
  | none => none
  | some s => if s = "" then none else some s

/-- The local `get_location` of `Detector._mark_main_entry`: value of the
first response header named `Location`, if any. -/
def getLocation (e : Entry) : Option String :=
  (e.responseHeaders.find? (fun h => h.1 == "Location")).map (fun h => h.2)

/-- Scan of `entries[1:]` in `Detector._mark_main_entry`: mark the first
entry whose request URL equals `mainUrl` as MAIN and stop; `none` when no
entry matches. -/
def markFirstMatch (mainUrl : String) : List TaggedEntry → Option (List TaggedEntry)
  | [] => none
  | e :: es =>
    if e.entry.requestUrl == mainUrl then
      some (setEntryType .main e :: es)
    else
      (markFirstMatch mainUrl es).map (fun l => e :: l)

/-- `Detector._mark_main_entry`: tag every entry RESOURCE, then decide the
MAIN entry from the first entry's `Location` header (absent or empty value
is falsy in the source's `if not main_location:` test).  `urljoin` stands
for the external `urllib.parse.urljoin`. -/
def markMainEntry (urljoin : String → String → String) :
    List Entry → List TaggedEntry
  | [] => []
  | e0 :: rest =>
    let first := tagEntry .resource e0
    let tagged := rest.map (tagEntry .resource)
    match strTruthy (getLocation e0) with
    | none => setEntryType .main first :: tagged
    | some loc =>
      let mainUrl := urljoin e0.requestUrl loc
      match markFirstMatch mainUrl tagged with
      | some tagged2 => first :: tagged2
      | none => setEntryType .main first :: tagged

/-- `Detector._script_to_har_entry`: synthesize an INLINE_SCRIPT entry for
an inline script; request and response URL are the requested URL, the body
is the script source, and no response headers are present. -/
def scriptToHarEntry (requestedUrl : String) (script : String) : TaggedEntry :=
  tagEntry .inlineScript
    { requestUrl := requestedUrl
      responseUrl := requestedUrl
      responseHeaders := []
      bodyText := script }

/-- `Detector._prepare_har`: mark the har entries when the har list is
non-empty, then append one synthesized entry per inline script. -/
def prepareHar (urljoin : String → String → String) (requestedUrl : String)
    (har : List Entry) (scripts : List String) : List TaggedEntry :=
  (if har.isEmpty then [] else markMainEntry urljoin har)
    ++ scripts.map (scriptToHarEntry requestedUrl)

/-- Number of MAIN-classified entries in a prepared sequence. -/
def countMain (l : List TaggedEntry) : Nat :=
  l.countP (fun e => e.dtype == EntryType.main)

/-- Signature kinds, the keys of the `MATCHERS` table in
`detectem/core.py`. -/
inductive MatcherKind
  | url
  | body
  | header
  | xpath
  deriving DecidableEq, Repr

/-- Opaque signature spec: the pipeline never inspects the payload, it
only hands it to the matcher strategies. -/
abbrev Spec := String

/-- A plugin's signature-kind table for one source, keyed by kind
(a Python dict in insertion order, so an association list). -/
abbrev GroupedMatchers := List (MatcherKind × List Spec)

/-- The four matcher-group sources used by `Detector`
(`'matchers'`, `'indicators'`, `'modular_matchers'`, `'generic'`). -/
inductive MatcherSource
  | matchers
  | indicators
  | modularMatchers
  | generic
  deriving DecidableEq, Repr

/-- Modelled from the spec: the record returned by a generic plugin's
`get_information(entry)` (the plugin class is an external collaborator);
it may carry a `name` field and carries a `homepage` field. -/
structure GenericInfo where
  name : Option String
  homepage : String

/-- Modelled from the spec: the registry's plugin item (class not under
`src/`): name, homepage, modularity flag, hint names, `file_hashes`
(URL-substring to version-to-digest tables, both in insertion order) and
the four matcher-group tables, plus the generic-plugin
`get_information` operation. -/
structure Plugin where
  name : String
  homepage : String
  isModular : Bool
  hints : List String
  fileHashes : List (String × List (String × String))
  matchers : GroupedMatchers
  indicators : GroupedMatchers
  modularMatchers : GroupedMatchers
  generic : GroupedMatchers
  getInformation : TaggedEntry → GenericInfo

/-- Modelled from the spec: `plugin.get_grouped_matchers(source)` returns
the plugin's signature-kind table for the given source. -/
def Plugin.getGroupedMatchers (p : Plugin) : MatcherSource → GroupedMatchers
  | .matchers => p.matchers
  | .indicators => p.indicators
  | .modularMatchers => p.modularMatchers
  | .generic => p.generic

/-- Modelled from the spec: the matcher strategies (`UrlMatcher`,
`BodyMatcher`, `HeaderMatcher`, `XPathMatcher` are external
collaborators), each exposing `get_version`, `check_presence` and
`get_module_name`. -/
structure MatcherStrategies where
  getVersion : MatcherKind → TaggedEntry → List Spec → Option String
  checkPresence : MatcherKind → TaggedEntry → List Spec → Bool
  getModuleName : MatcherKind → TaggedEntry → List Spec → Option String

/-- The local `remove_group` of `Detector._get_matchers_for_entry`:
delete the binding of one kind from the table. -/
def removeGroup (g : MatcherKind) (gm : GroupedMatchers) : GroupedMatchers :=
  gm.filter (fun kv => kv.1 != g)

/-- `Detector._get_matchers_for_entry`: fetch the plugin's table for the
source and filter it by the entry's classification (MAIN keeps
header/xpath, anything else keeps url/body). -/
def getMatchersForEntry (source : MatcherSource) (p : Plugin)
    (e : TaggedEntry) : GroupedMatchers :=
  let gm := p.getGroupedMatchers source
  if e.dtype == EntryType.main then
    removeGroup .url (removeGroup .body gm)
  else
    removeGroup .xpath (removeGroup .header gm)

/-- Modelled from the spec: `detectem.utils.get_url` (not under `src/`)
returns the entry's response URL. -/
def getUrl (e : TaggedEntry) : String := e.entry.responseUrl

/-- Modelled from the spec: `detectem.utils.get_response_body` (not under
`src/`) returns the entry's body text. -/
def getResponseBody (e : TaggedEntry) : String := e.entry.bodyText

/-- Result record types (`VERSION_TYPE`, `INDICATOR_TYPE`, `HINT_TYPE`,
`GENERIC_TYPE` from `detectem/settings.py`). -/
inductive ResultType
  | version
  | indicator
  | hint
  | generic
  deriving DecidableEq, Repr

/-- Modelled from the spec: `detectem.results.Result` (not under `src/`);
a record with name, optional version, homepage, source URL and type, the
type defaulting to VERSION when the source omits it. -/
structure Result where
  name : String
  version : Option String
  homepage : String
  fromUrl : String
  type : ResultType
  deriving DecidableEq, Repr

/-- `Detector.get_hints`: one HINT result per hint name found in the
registry, carrying the hinted plugin's own name and homepage and the
requested URL; unknown names are logged and skipped.  `getPlugin` stands
for the external registry lookup `self._plugins.get`. -/
def getHints (getPlugin : String → Option Plugin) (requestedUrl : String)
    (p : Plugin) : List Result :=
  p.hints.foldl
    (fun acc hintName =>
      match getPlugin hintName with
      | some hp =>
        acc ++ [{ name := hp.name
                  version := none
                  homepage := hp.homepage
                  fromUrl := requestedUrl
                  type := .hint }]
      | none => acc)
    []

/-- `Detector.process_from_splash`: for every splash-reported
`(name, version)` pair, look the plugin up and emit a VERSION result
followed immediately by its hints.  The registry lookup is used
unguarded in the source, so a name with no registered plugin raises an
uncaught `AttributeError`; that failure is modelled as `none`. -/
def processFromSplash (getPlugin : String → Option Plugin)
    (requestedUrl : String) : List (String × String) → Option (List Result)
  | [] => some []
  | (sname, sversion) :: rest =>
    match getPlugin sname with
    | none => none
    | some p =>
      match processFromSplash getPlugin requestedUrl rest with
      | none => none
      | some tl =>
        some (({ name := p.name
                 version := some sversion
                 homepage := p.homepage
                 fromUrl := requestedUrl
                 type := ResultType.version } :: getHints getPlugin requestedUrl p) ++ tl)

/-- `Detector.get_plugin_version`: apply each eligible kind's
`get_version`, keep the truthy results, and reduce them with the external
`get_most_complete_version` (abstracted as `mostCompleteVersion`). -/
def getPluginVersion (M : MatcherStrategies)
    (mostCompleteVersion : List String → Option String) (p : Plugin)
    (e : TaggedEntry) : Option String :=
  let gm := getMatchersForEntry .matchers p e
  let versions := gm.filterMap (fun kv => strTruthy (M.getVersion kv.1 e kv.2))
  mostCompleteVersion versions

/-- Substring test on character lists, used to model Python's
`file not in url`. -/
def listContainsSub (pat : List Char) : List Char → Bool
  | [] => pat.isEmpty
  | c :: rest => pat.isPrefixOf (c :: rest) || listContainsSub pat rest

/-- Python's `pat in hay` substring containment on strings. -/
def strContains (hay pat : String) : Bool :=
  listContainsSub pat.data hay.data

/-- Loop of `Detector.get_version_via_file_hashes`: skip `file_hashes`
pairs whose URL-substring does not occur in the entry URL; in a
considered pair, return the first version whose recorded hash equals the
body digest; otherwise continue with the next pair. -/
def lookupFileHash (digest : String) (url : String) :
    List (String × List (String × String)) → Option String
  | [] => none
  | (file, hashDict) :: rest =>
    if strContains url file then
      match hashDict.find? (fun vh => digest == vh.2) with
      | some vh => some vh.1
      | none => lookupFileHash digest url rest
    else lookupFileHash digest url rest

/-- `Detector.get_version_via_file_hashes`.  `sha256HexUtf8` stands for
the external `hashlib.sha256(body.encode('utf-8')).hexdigest()`: the
SHA-256 hex digest of the UTF-8-encoded body text. -/
def getVersionViaFileHashes (sha256HexUtf8 : String → String) (p : Plugin)
    (e : TaggedEntry) : Option String :=
  if p.fileHashes.isEmpty then none
  else
    lookupFileHash (sha256HexUtf8 (getResponseBody e)) (getUrl e) p.fileHashes

/-- Loop of `Detector.get_plugin_name`: first truthy `get_module_name`
result across the eligible kinds, stopping at the first one found. -/
def findModuleName (M : MatcherStrategies) (e : TaggedEntry) :
    GroupedMatchers → Option String
  | [] => none
  | kv :: rest =>
    match strTruthy (M.getModuleName kv.1 e kv.2) with
    | some m => some m
    | none => findModuleName M e rest

/-- `Detector.get_plugin_name`: plain name for non-modular plugins; for
modular plugins, `name-module` when a module name is found via the
`modular_matchers` table, else the plain name. -/
def getPluginName (M : MatcherStrategies) (p : Plugin) (e : TaggedEntry) :
    String :=
  if !p.isModular then p.name
  else
    match findModuleName M e (getMatchersForEntry .modularMatchers p e) with
    | some m => p.name ++ "-" ++ m
    | none => p.name

/-- `Detector.check_indicator_presence`: collect `check_presence` over the
eligible kinds of the `indicators` table and take the disjunction. -/
def checkIndicatorPresence (M : MatcherStrategies) (p : Plugin)
    (e : TaggedEntry) : Bool :=
  ((getMatchersForEntry .indicators p e).map
    (fun kv => M.checkPresence kv.1 e kv.2)).any id

/-- Bundle of the external collaborators a `Detector` run depends on:
matcher strategies, the most-complete-version reducer, the body digest,
the registry lookup, and the requested URL. -/
structure Ctx where
  M : MatcherStrategies
  mostCompleteVersion : List String → Option String
  sha256HexUtf8 : String → String
  getPlugin : String → Option Plugin
  requestedUrl : String

/-- Version-plugin branch of the entry loop in `Detector.process_har`:
when a (truthy) version is found, emit one VERSION result under the
resolved plugin name and queue the plugin's hints. -/
def versionStep (c : Ctx) (p : Plugin) (e : TaggedEntry) :
    List Result × List Result :=
  match strTruthy (getPluginVersion c.M c.mostCompleteVersion p e) with
  | some v =>
    ([{ name := getPluginName c.M p e
        version := some v
        homepage := p.homepage
        fromUrl := getUrl e
        type := .version }],
     getHints c.getPlugin c.requestedUrl p)
  | none => ([], [])

/-- Indicator-plugin branch of the entry loop in `Detector.process_har`:
on presence, emit an INDICATOR result, queue hints, then either a VERSION
result from the file-hash upgrade or a second INDICATOR result. -/
def indicatorStep (c : Ctx) (p : Plugin) (e : TaggedEntry) :
    List Result × List Result :=
  if checkIndicatorPresence c.M p e then
    let pname := getPluginName c.M p e
    let indicatorResult : Result :=
      { name := pname
        version := none
        homepage := p.homepage
        fromUrl := getUrl e
        type := .indicator }
    let rs :=
      match strTruthy (getVersionViaFileHashes c.sha256HexUtf8 p e) with
      | some v =>
        [indicatorResult,
         { name := pname
           version := some v
           homepage := p.homepage
           fromUrl := getUrl e
           type := .version }]
      | none => [indicatorResult, indicatorResult]
    (rs, getHints c.getPlugin c.requestedUrl p)
  else ([], [])

/-- Generic-plugin branch of the entry loop in `Detector.process_har`:
on presence, call `get_information` and emit one GENERIC result with the
returned name and homepage when the record carries a name. -/
def genericStep (c : Ctx) (p : Plugin) (e : TaggedEntry) : List Result :=
  if checkIndicatorPresence c.M p e then
    let d := p.getInformation e
    match d.name with
    | some n =>
      [{ name := n
         version := none
         homepage := d.homepage
         fromUrl := getUrl e
         type := .generic }]
    | none => []
  else []

/-- One iteration of the entry loop of `Detector.process_har`: results
added for this entry (version pass, then indicator pass, then generic
pass, plugins in registry order) together with the hints queued for the
final flush. -/
def processEntry (c : Ctx) (versionPlugins indicatorPlugins genericPlugins :
    List Plugin) (e : TaggedEntry) : List Result × List Result :=
  (versionPlugins.flatMap (fun p => (versionStep c p e).1)
     ++ indicatorPlugins.flatMap (fun p => (indicatorStep c p e).1)
     ++ genericPlugins.flatMap (fun p => genericStep c p e),
   versionPlugins.flatMap (fun p => (versionStep c p e).2)
     ++ indicatorPlugins.flatMap (fun p => (indicatorStep c p e).2))

/-- `Detector.process_har`: the sequence of results added to the
collection — per-entry results in entry order, then all queued hints
flushed after the entry loop. -/
def processHar (c : Ctx) (versionPlugins indicatorPlugins genericPlugins :
    List Plugin) (har : List TaggedEntry) : List Result :=
  har.flatMap (fun e => (processEntry c versionPlugins indicatorPlugins genericPlugins e).1)
    ++ har.flatMap (fun e => (processEntry c versionPlugins indicatorPlugins genericPlugins e).2)

end Detectem


namespace Detectem

/-! Helper lemmas about the entry classifier. -/

theorem dtype_tagEntry (t : EntryType) (e : Entry) : (tagEntry t e).dtype = t := rfl

theorem dtype_setEntryType (t : EntryType) (e : TaggedEntry) :
    (setEntryType t e).dtype = t := rfl

theorem countMain_nil : countMain [] = 0 := rfl

theorem countMain_cons (e : TaggedEntry) (l : List TaggedEntry) :
    countMain (e :: l) = countMain l + (if e.dtype = EntryType.main then 1 else 0) := by
  simp [countMain, List.countP_cons]

theorem countMain_append (l₁ l₂ : List TaggedEntry) :
    countMain (l₁ ++ l₂) = countMain l₁ + countMain l₂ := by
  simp [countMain, List.countP_append]

theorem countMain_of_no_main (l : List TaggedEntry)
    (h : ∀ e ∈ l, e.dtype ≠ EntryType.main) : countMain l = 0 := by
  simp only [countMain, List.countP_eq_zero]
  intro e he
  simpa using h e he

theorem countMain_tagResource (l : List Entry) :
    countMain (l.map (tagEntry .resource)) = 0 := by
  apply countMain_of_no_main
  intro e he
  rcases List.mem_map.1 he with ⟨a, _, rfl⟩
  simp [tagEntry]

theorem countMain_markFirstMatch (u : String) (l : List TaggedEntry) :
    ∀ l₂, (∀ e ∈ l, e.dtype = EntryType.resource) →
      markFirstMatch u l = some l₂ → countMain l₂ = 1 := by
  induction l with
  | nil => intro l₂ _ h; simp [markFirstMatch] at h
  | cons e es ih =>
    intro l₂ hres h
    rw [markFirstMatch] at h
    by_cases hu : e.entry.requestUrl == u
    · simp only [hu, if_pos] at h
      cases h
      rw [countMain_cons, countMain_of_no_main]
      · simp [setEntryType]
      · intro x hx
        rw [hres x (List.mem_cons_of_mem _ hx)]
        simp
    · simp only [hu, if_neg, Bool.false_eq_true, not_false_iff] at h
      rcases Option.map_eq_some'.1 h with ⟨l₂', hrec, rfl⟩
      rw [countMain_cons, ih l₂' (fun x hx => hres x (List.mem_cons_of_mem _ hx)) hrec]
      rw [hres e (List.mem_cons_self _ _)]
      simp

theorem countMain_markMainEntry (urljoin : String → String → String)
    (e0 : Entry) (rest : List Entry) :
    countMain (markMainEntry urljoin (e0 :: rest)) = 1 := by
  rw [markMainEntry]
  cases hl : strTruthy (getLocation e0) with
  | none =>
    simp only []
    rw [countMain_cons, countMain_tagResource, dtype_setEntryType]
    simp
  | some loc =>
    simp only []
    cases hm : markFirstMatch (urljoin e0.requestUrl loc) (rest.map (tagEntry .resource)) with
    | some tagged2 =>
      simp only []
      rw [countMain_cons]
      rw [countMain_markFirstMatch _ _ _ ?hres hm]
      · simp [tagEntry]
      · intro x hx
        rcases List.mem_map.1 hx with ⟨a, _, rfl⟩
        rfl
    | none =>
      simp only []
      rw [countMain_cons, countMain_tagResource, dtype_setEntryType]
      simp

theorem countMain_scripts (requestedUrl : String) (scripts : List String) :
    countMain (scripts.map (scriptToHarEntry requestedUrl)) = 0 := by
  apply countMain_of_no_main
  intro e he
  rcases List.mem_map.1 he with ⟨s, _, rfl⟩
  simp [scriptToHarEntry, tagEntry]

/-- C1 (corrected): the prepared sequence has exactly one MAIN entry when
the har list is non-empty; when the har list is empty, no entry is MAIN
even if inline scripts are present, since `_mark_main_entry` is only
invoked on a non-empty har list. -/
theorem prepareHar_main_count (urljoin : String → String → String)
    (requestedUrl : String) (har : List Entry) (scripts : List String) :
    (har ≠ [] → countMain (prepareHar urljoin requestedUrl har scripts) = 1) ∧
    (har = [] → countMain (prepareHar urljoin requestedUrl har scripts) = 0) := by
  constructor
  · intro hne
    rcases har with _ | ⟨e0, rest⟩
    · exact absurd rfl hne
    · rw [prepareHar, countMain_append, countMain_scripts]
      rw [if_neg (by simp : ¬((e0 :: rest).isEmpty = true))]
      rw [countMain_markMainEntry]
  · rintro rfl
    rw [prepareHar, countMain_append, countMain_scripts]
    rfl

/-- Witness for C1's theorem at concrete inputs. -/
theorem prepareHar_main_count_witness :
    countMain (prepareHar (fun _ l => l) "http://x"
        [⟨"http://x", "http://x", [], ""⟩] ["var a;"]) = 1 ∧
    countMain (prepareHar (fun _ l => l) "http://x" [] ["var a;"]) = 0 :=
  ⟨(prepareHar_main_count (fun _ l => l) "http://x"
      [⟨"http://x", "http://x", [], ""⟩] ["var a;"]).1 (by decide),
   (prepareHar_main_count (fun _ l => l) "http://x" [] ["var a;"]).2 rfl⟩

/-- Counterexample to C1 as stated: with an empty har list and one inline
script the prepared sequence is non-empty yet contains no MAIN entry. -/
theorem prepareHar_scripts_only_no_main :
    (prepareHar (fun _ l => l) "http://x" [] ["var a;"]).length = 1 ∧
    countMain (prepareHar (fun _ l => l) "http://x" [] ["var a;"]) ≠ 1 := by
  constructor
  · decide
  · decide


/-! Helper lemmas for the redirect scan. -/

theorem markFirstMatch_not_found (u : String) (l : List TaggedEntry)
    (h : ∀ e ∈ l, e.entry.requestUrl ≠ u) : markFirstMatch u l = none := by
  induction l with
  | nil => rfl
  | cons e es ih =>
    rw [markFirstMatch, if_neg (by simpa using h e (List.mem_cons_self _ _))]
    rw [ih (fun x hx => h x (List.mem_cons_of_mem _ hx))]
    rfl

theorem markFirstMatch_found (u : String) (l₁ : List TaggedEntry)
    (em : TaggedEntry) (l₂ : List TaggedEntry)
    (h₁ : ∀ e ∈ l₁, e.entry.requestUrl ≠ u) (h₂ : em.entry.requestUrl = u) :
    markFirstMatch u (l₁ ++ em :: l₂)
      = some (l₁ ++ setEntryType .main em :: l₂) := by
  induction l₁ with
  | nil =>
    rw [List.nil_append, markFirstMatch, if_pos (by simpa using h₂), List.nil_append]
  | cons e es ih =>
    rw [List.cons_append, markFirstMatch,
      if_neg (by simpa using h₁ e (List.mem_cons_self _ _))]
    rw [ih (fun x hx => h₁ x (List.mem_cons_of_mem _ hx))]
    rfl

theorem dtypes_tagResource (l : List Entry) :
    (l.map (tagEntry .resource)).map (fun e => e.dtype)
      = List.replicate l.length EntryType.resource := by
  induction l with
  | nil => rfl
  | cons e es ih => simp [tagEntry, ih, List.replicate_succ]

/-- C2 (corrected): for a non-empty har list, the first entry is MAIN when
its `Location` header is absent or has an empty value (the source tests
`if not main_location:`); when the `Location` value is non-empty and some
later entry's request URL equals its resolution against the first entry's
request URL, the first such later entry is MAIN and the first entry stays
RESOURCE; when no later entry matches, the first entry is MAIN. -/
theorem markMainEntry_location_cases (urljoin : String → String → String)
    (e0 : Entry) (rest : List Entry) :
    (strTruthy (getLocation e0) = none →
      (markMainEntry urljoin (e0 :: rest)).map (fun e => e.dtype)
        = EntryType.main :: List.replicate rest.length EntryType.resource) ∧
    (∀ loc, strTruthy (getLocation e0) = some loc →
      (∀ l₁ em l₂, rest = l₁ ++ em :: l₂ →
        (∀ e ∈ l₁, e.requestUrl ≠ urljoin e0.requestUrl loc) →
        em.requestUrl = urljoin e0.requestUrl loc →
        (markMainEntry urljoin (e0 :: rest)).map (fun e => e.dtype)
          = EntryType.resource ::
              (List.replicate l₁.length EntryType.resource
                ++ EntryType.main :: List.replicate l₂.length EntryType.resource)) ∧
      ((∀ e ∈ rest, e.requestUrl ≠ urljoin e0.requestUrl loc) →
        (markMainEntry urljoin (e0 :: rest)).map (fun e => e.dtype)
          = EntryType.main :: List.replicate rest.length EntryType.resource)) := by
  refine ⟨?_, ?_⟩
  · intro hl
    rw [markMainEntry]
    simp only [hl]
    rw [List.map_cons, dtype_setEntryType, dtypes_tagResource]
  · intro loc hl
    refine ⟨?_, ?_⟩
    · rintro l₁ em l₂ rfl hnone hem
      rw [markMainEntry]
      simp only [hl, List.map_append, List.map_cons]
      rw [markFirstMatch_found (urljoin e0.requestUrl loc)
          (l₁.map (tagEntry .resource)) (tagEntry .resource em)
          (l₂.map (tagEntry .resource)) ?h1 hem]
      · simp only [List.map_cons, List.map_append, dtypes_tagResource,
          dtype_tagEntry, dtype_setEntryType]
      · intro e he
        rcases List.mem_map.1 he with ⟨a, ha, rfl⟩
        exact hnone a ha
    · intro hnone
      rw [markMainEntry]
      simp only [hl]
      rw [markFirstMatch_not_found _ _ ?h]
      · rw [List.map_cons, dtype_setEntryType, dtypes_tagResource]
      · intro e he
        rcases List.mem_map.1 he with ⟨a, ha, rfl⟩
        exact hnone a ha

/-- Witness for C2's theorem: one concrete instance per branch. -/
theorem markMainEntry_location_cases_witness :
    (markMainEntry (fun _ l => l)
        [⟨"http://a/", "http://a/", [], ""⟩]).map (fun e => e.dtype)
      = [EntryType.main] ∧
    (markMainEntry (fun _ l => l)
        [⟨"http://a/", "http://a/", [("Location", "http://b/")], ""⟩,
         ⟨"http://c/", "http://c/", [], ""⟩,
         ⟨"http://b/", "http://b/", [], ""⟩,
         ⟨"http://b/", "http://b/", [], ""⟩]).map (fun e => e.dtype)
      = [EntryType.resource, EntryType.resource, EntryType.main,
         EntryType.resource] ∧
    (markMainEntry (fun _ l => l)
        [⟨"http://a/", "http://a/", [("Location", "http://b/")], ""⟩,
         ⟨"http://c/", "http://c/", [], ""⟩]).map (fun e => e.dtype)
      = [EntryType.main, EntryType.resource] := by
  refine ⟨?_, ?_, ?_⟩
  · exact (markMainEntry_location_cases (fun _ l => l)
      ⟨"http://a/", "http://a/", [], ""⟩ []).1 rfl
  · exact ((markMainEntry_location_cases (fun _ l => l)
      ⟨"http://a/", "http://a/", [("Location", "http://b/")], ""⟩
      [⟨"http://c/", "http://c/", [], ""⟩,
       ⟨"http://b/", "http://b/", [], ""⟩,
       ⟨"http://b/", "http://b/", [], ""⟩]).2 "http://b/" rfl).1
      [⟨"http://c/", "http://c/", [], ""⟩]
      ⟨"http://b/", "http://b/", [], ""⟩
      [⟨"http://b/", "http://b/", [], ""⟩] rfl (by decide) rfl
  · exact ((markMainEntry_location_cases (fun _ l => l)
      ⟨"http://a/", "http://a/", [("Location", "http://b/")], ""⟩
      [⟨"http://c/", "http://c/", [], ""⟩]).2 "http://b/" rfl).2 (by decide)

/-- Counterexample to C2 as stated: the first entry carries a `Location`
header whose value is the empty string, a later entry's request URL equals
its resolution against the first entry's request URL (the resolver used
agrees with `urllib.parse.urljoin` on an empty location for fragment-free
URLs), yet the first entry is marked MAIN and the later entry stays
RESOURCE. -/
theorem markMainEntry_empty_location_counterexample :
    getLocation ⟨"http://a/", "http://a/", [("Location", "")], ""⟩ = some "" ∧
    (⟨"http://a/", "http://a/b", [], ""⟩ : Entry).requestUrl
      = (fun b (_ : String) => b)
          (Entry.requestUrl ⟨"http://a/", "http://a/", [("Location", "")], ""⟩) "" ∧
    (markMainEntry (fun b (_ : String) => b)
        [⟨"http://a/", "http://a/", [("Location", "")], ""⟩,
         ⟨"http://a/", "http://a/b", [], ""⟩]).map (fun e => e.dtype)
      = [EntryType.main, EntryType.resource] ∧
    (markMainEntry (fun b (_ : String) => b)
        [⟨"http://a/", "http://a/", [("Location", "")], ""⟩,
         ⟨"http://a/", "http://a/b", [], ""⟩]).map (fun e => e.dtype)
      ≠ [EntryType.resource, EntryType.main] := by
  refine ⟨rfl, rfl, by decide, by decide⟩


/-- C3 (confirmed): the matcher-group router keeps only the header and
xpath kinds for MAIN entries and only the url and body kinds for non-MAIN
entries, preserving the table's order otherwise. -/
theorem getMatchersForEntry_kinds (source : MatcherSource) (p : Plugin)
    (e : TaggedEntry) :
    (e.dtype = EntryType.main →
      getMatchersForEntry source p e
        = (p.getGroupedMatchers source).filter
            (fun kv => kv.1 == MatcherKind.header || kv.1 == MatcherKind.xpath)) ∧
    (e.dtype ≠ EntryType.main →
      getMatchersForEntry source p e
        = (p.getGroupedMatchers source).filter
            (fun kv => kv.1 == MatcherKind.url || kv.1 == MatcherKind.body)) := by
  constructor
  · intro h
    rw [getMatchersForEntry]
    simp only [h, beq_self_eq_true, if_true, removeGroup, List.filter_filter]
    refine List.filter_congr ?_
    rintro ⟨k, sp⟩ _
    cases k <;> rfl
  · intro h
    rw [getMatchersForEntry]
    rw [if_neg (by simpa using h)]
    simp only [removeGroup, List.filter_filter]
    refine List.filter_congr ?_
    rintro ⟨k, sp⟩ _
    cases k <;> rfl

/-- Witness for C3's theorem: a MAIN and a non-MAIN entry on a plugin
whose table binds all four kinds. -/
theorem getMatchersForEntry_kinds_witness :
    getMatchersForEntry .matchers
        ⟨"p", "h", false, [], [],
         [(MatcherKind.url, ["u"]), (MatcherKind.body, ["b"]),
          (MatcherKind.header, ["hd"]), (MatcherKind.xpath, ["x"])],
         [], [], [], fun _ => ⟨none, ""⟩⟩
        ⟨⟨"r", "r", [], ""⟩, EntryType.main⟩
      = [(MatcherKind.header, ["hd"]), (MatcherKind.xpath, ["x"])] ∧
    getMatchersForEntry .matchers
        ⟨"p", "h", false, [], [],
         [(MatcherKind.url, ["u"]), (MatcherKind.body, ["b"]),
          (MatcherKind.header, ["hd"]), (MatcherKind.xpath, ["x"])],
         [], [], [], fun _ => ⟨none, ""⟩⟩
        ⟨⟨"r", "r", [], ""⟩, EntryType.resource⟩
      = [(MatcherKind.url, ["u"]), (MatcherKind.body, ["b"])] := by
  constructor
  · rw [(getMatchersForEntry_kinds .matchers
      ⟨"p", "h", false, [], [],
       [(MatcherKind.url, ["u"]), (MatcherKind.body, ["b"]),
        (MatcherKind.header, ["hd"]), (MatcherKind.xpath, ["x"])],
       [], [], [], fun _ => ⟨none, ""⟩⟩
      ⟨⟨"r", "r", [], ""⟩, EntryType.main⟩).1 rfl]
    rfl
  · rw [(getMatchersForEntry_kinds .matchers
      ⟨"p", "h", false, [], [],
       [(MatcherKind.url, ["u"]), (MatcherKind.body, ["b"]),
        (MatcherKind.header, ["hd"]), (MatcherKind.xpath, ["x"])],
       [], [], [], fun _ => ⟨none, ""⟩⟩
      ⟨⟨"r", "r", [], ""⟩, EntryType.resource⟩).2 (by decide)]
    rfl

/-- C4 (confirmed): indicator presence is the disjunction of
`check_presence` over the eligible kinds: true exactly when some eligible
kind reports presence, and false when no kind is eligible. -/
theorem checkIndicatorPresence_any (M : MatcherStrategies) (p : Plugin)
    (e : TaggedEntry) :
    (checkIndicatorPresence M p e = true ↔
      ∃ kv ∈ getMatchersForEntry .indicators p e,
        M.checkPresence kv.1 e kv.2 = true) ∧
    (getMatchersForEntry .indicators p e = [] →
      checkIndicatorPresence M p e = false) := by
  constructor
  · rw [checkIndicatorPresence]
    simp [List.any_map, List.any_eq_true, Function.comp]
  · intro h
    rw [checkIndicatorPresence, h]
    rfl

/-- Witness for C4's theorem: a plugin with no eligible kind yields false,
and a plugin with an eligible kind reporting presence yields true. -/
theorem checkIndicatorPresence_any_witness :
    checkIndicatorPresence
        ⟨fun _ _ _ => none, fun _ _ _ => true, fun _ _ _ => none⟩
        ⟨"p", "h", false, [], [], [], [], [], [], fun _ => ⟨none, ""⟩⟩
        ⟨⟨"r", "r", [], ""⟩, EntryType.resource⟩ = false ∧
    checkIndicatorPresence
        ⟨fun _ _ _ => none, fun _ _ _ => true, fun _ _ _ => none⟩
        ⟨"p", "h", false, [], [], [], [(MatcherKind.url, ["u"])], [], [],
         fun _ => ⟨none, ""⟩⟩
        ⟨⟨"r", "r", [], ""⟩, EntryType.resource⟩ = true := by
  constructor
  · exact (checkIndicatorPresence_any
      ⟨fun _ _ _ => none, fun _ _ _ => true, fun _ _ _ => none⟩
      ⟨"p", "h", false, [], [], [], [], [], [], fun _ => ⟨none, ""⟩⟩
      ⟨⟨"r", "r", [], ""⟩, EntryType.resource⟩).2 rfl
  · exact (checkIndicatorPresence_any
      ⟨fun _ _ _ => none, fun _ _ _ => true, fun _ _ _ => none⟩
      ⟨"p", "h", false, [], [], [], [(MatcherKind.url, ["u"])], [], [],
       fun _ => ⟨none, ""⟩⟩
      ⟨⟨"r", "r", [], ""⟩, EntryType.resource⟩).1.mpr
      ⟨(MatcherKind.url, ["u"]), by decide, rfl⟩


theorem getHints_foldl (getPlugin : String → Option Plugin)
    (requestedUrl : String) (hints : List String) (acc : List Result) :
    hints.foldl
      (fun acc hintName =>
        match getPlugin hintName with
        | some hp =>
          acc ++ [{ name := hp.name
                    version := none
                    homepage := hp.homepage
                    fromUrl := requestedUrl
                    type := .hint }]
        | none => acc)
      acc
    = acc ++ hints.filterMap (fun hintName =>
        (getPlugin hintName).map (fun hp =>
          { name := hp.name
            version := none
            homepage := hp.homepage
            fromUrl := requestedUrl
            type := ResultType.hint })) := by
  induction hints generalizing acc with
  | nil => simp
  | cons h rest ih =>
    rw [List.foldl_cons, List.filterMap_cons]
    cases hp : getPlugin h with
    | none => simp only [hp, Option.map_none']; exact ih acc
    | some q => simp only [hp, Option.map_some']; rw [ih]; simp

theorem filterMap_hint_length (getPlugin : String → Option Plugin)
    (requestedUrl : String) (hints : List String) :
    (hints.filterMap (fun hintName =>
        (getPlugin hintName).map (fun hp =>
          { name := hp.name
            version := none
            homepage := hp.homepage
            fromUrl := requestedUrl
            type := ResultType.hint : Result }))).length
      = hints.countP (fun hintName => (getPlugin hintName).isSome) := by
  induction hints with
  | nil => rfl
  | cons h rest ih =>
    rw [List.filterMap_cons, List.countP_cons]
    cases hp : getPlugin h with
    | none => simp [ih]
    | some q => simp [ih]

/-- C6 (confirmed): `get_hints` yields one HINT result per hint name found
in the registry, carrying the hinted plugin's own name and homepage and
the requested URL, and nothing for names the registry does not know; in
particular its length counts exactly the registered hint names. -/
theorem getHints_spec (getPlugin : String → Option Plugin)
    (requestedUrl : String) (p : Plugin) :
    getHints getPlugin requestedUrl p
      = p.hints.filterMap (fun hintName =>
          (getPlugin hintName).map (fun hp =>
            { name := hp.name
              version := none
              homepage := hp.homepage
              fromUrl := requestedUrl
              type := ResultType.hint })) ∧
    (getHints getPlugin requestedUrl p).length
      = p.hints.countP (fun hintName => (getPlugin hintName).isSome) := by
  have h := getHints_foldl getPlugin requestedUrl p.hints []
  rw [List.nil_append] at h
  refine ⟨h, ?_⟩
  rw [getHints, h, filterMap_hint_length]

theorem findModuleName_eq_findSome (M : MatcherStrategies) (e : TaggedEntry)
    (gm : GroupedMatchers) :
    findModuleName M e gm
      = gm.findSome? (fun kv => strTruthy (M.getModuleName kv.1 e kv.2)) := by
  induction gm with
  | nil => rfl
  | cons kv rest ih =>
    rw [findModuleName, List.findSome?_cons]
    cases strTruthy (M.getModuleName kv.1 e kv.2) with
    | none => exact ih
    | some m => rfl

/-- C7 (confirmed): a non-modular plugin always gets its plain name; a
modular plugin gets `name-module` where the module is the first non-empty
`get_module_name` result across the eligible kinds of the
`modular_matchers` table, and falls back to the plain name when no
eligible kind yields one. -/
theorem getPluginName_modular (M : MatcherStrategies) (p : Plugin)
    (e : TaggedEntry) :
    (p.isModular = false → getPluginName M p e = p.name) ∧
    (p.isModular = true →
      (∀ m, (getMatchersForEntry .modularMatchers p e).findSome?
          (fun kv => strTruthy (M.getModuleName kv.1 e kv.2)) = some m →
        getPluginName M p e = p.name ++ "-" ++ m) ∧
      ((getMatchersForEntry .modularMatchers p e).findSome?
          (fun kv => strTruthy (M.getModuleName kv.1 e kv.2)) = none →
        getPluginName M p e = p.name)) := by
  refine ⟨?_, ?_⟩
  · intro h
    rw [getPluginName, h]
    rfl
  · intro h
    constructor
    · intro m hm
      rw [getPluginName, h, findModuleName_eq_findSome, hm]
      rfl
    · intro hm
      rw [getPluginName, h, findModuleName_eq_findSome, hm]
      rfl

/-- Witness for C7's theorem: a non-modular plugin, a modular plugin with
a found module name, and a modular plugin with none. -/
theorem getPluginName_modular_witness :
    getPluginName
        ⟨fun _ _ _ => none, fun _ _ _ => false, fun _ _ _ => none⟩
        ⟨"p", "h", false, [], [], [], [], [(MatcherKind.url, ["u"])], [],
         fun _ => ⟨none, ""⟩⟩
        ⟨⟨"r", "r", [], ""⟩, EntryType.resource⟩ = "p" ∧
    getPluginName
        ⟨fun _ _ _ => none, fun _ _ _ => false, fun _ _ _ => some "mod"⟩
        ⟨"p", "h", true, [], [], [], [], [(MatcherKind.url, ["u"])], [],
         fun _ => ⟨none, ""⟩⟩
        ⟨⟨"r", "r", [], ""⟩, EntryType.resource⟩ = "p-mod" ∧
    getPluginName
        ⟨fun _ _ _ => none, fun _ _ _ => false, fun _ _ _ => some ""⟩
        ⟨"p", "h", true, [], [], [], [], [(MatcherKind.url, ["u"])], [],
         fun _ => ⟨none, ""⟩⟩
        ⟨⟨"r", "r", [], ""⟩, EntryType.resource⟩ = "p" := by
  refine ⟨?_, ?_, ?_⟩
  · exact (getPluginName_modular
      ⟨fun _ _ _ => none, fun _ _ _ => false, fun _ _ _ => none⟩
      ⟨"p", "h", false, [], [], [], [], [(MatcherKind.url, ["u"])], [],
       fun _ => ⟨none, ""⟩⟩
      ⟨⟨"r", "r", [], ""⟩, EntryType.resource⟩).1 rfl
  · exact ((getPluginName_modular
      ⟨fun _ _ _ => none, fun _ _ _ => false, fun _ _ _ => some "mod"⟩
      ⟨"p", "h", true, [], [], [], [], [(MatcherKind.url, ["u"])], [],
       fun _ => ⟨none, ""⟩⟩
      ⟨⟨"r", "r", [], ""⟩, EntryType.resource⟩).2 rfl).1 "mod" (by decide)
  · exact ((getPluginName_modular
      ⟨fun _ _ _ => none, fun _ _ _ => false, fun _ _ _ => some ""⟩
      ⟨"p", "h", true, [], [], [], [], [(MatcherKind.url, ["u"])], [],
       fun _ => ⟨none, ""⟩⟩
      ⟨⟨"r", "r", [], ""⟩, EntryType.resource⟩).2 rfl).2 (by decide)


theorem lookupFileHash_filter (digest url : String)
    (fh : List (String × List (String × String))) :
    lookupFileHash digest url fh
      = (fh.filter (fun q => strContains url q.1)).findSome?
          (fun q => (q.2.find? (fun vh => digest == vh.2)).map (fun vh => vh.1)) := by
  induction fh with
  | nil => rfl
  | cons q rest ih =>
    rcases q with ⟨file, hashDict⟩
    rw [lookupFileHash, List.filter_cons]
    by_cases hc : strContains url file
    · rw [if_pos hc, if_pos (by simpa using hc), List.findSome?_cons]
      cases hfind : hashDict.find? (fun vh => digest == vh.2) with
      | none => simp only [hfind, Option.map_none']; exact ih
      | some vh => simp [hfind]
    · rw [if_neg hc, if_neg (by simpa using hc)]
      exact ih

/-- C5 (confirmed): the file-hash lookup considers exactly the
`file_hashes` pairs whose URL-substring occurs in the entry URL, compares
the body digest (the external SHA-256 hex digest of the UTF-8-encoded
body text, abstracted as `sha256HexUtf8`) against the recorded hashes and
returns the first matching version; on an indicator match the pipeline
emits an INDICATOR result followed by a VERSION result when a version is
found, and a second INDICATOR result otherwise. -/
theorem fileHash_version_upgrade (c : Ctx) (p : Plugin) (e : TaggedEntry) :
    getVersionViaFileHashes c.sha256HexUtf8 p e
      = (p.fileHashes.filter (fun q => strContains (getUrl e) q.1)).findSome?
          (fun q => (q.2.find?
              (fun vh => c.sha256HexUtf8 (getResponseBody e) == vh.2)).map
            (fun vh => vh.1)) ∧
    (checkIndicatorPresence c.M p e = true →
      (∀ v, strTruthy (getVersionViaFileHashes c.sha256HexUtf8 p e) = some v →
        (indicatorStep c p e).1
          = [{ name := getPluginName c.M p e
               version := none
               homepage := p.homepage
               fromUrl := getUrl e
               type := ResultType.indicator },
             { name := getPluginName c.M p e
               version := some v
               homepage := p.homepage
               fromUrl := getUrl e
               type := ResultType.version }]) ∧
      (strTruthy (getVersionViaFileHashes c.sha256HexUtf8 p e) = none →
        (indicatorStep c p e).1
          = [{ name := getPluginName c.M p e
               version := none
               homepage := p.homepage
               fromUrl := getUrl e
               type := ResultType.indicator },
             { name := getPluginName c.M p e
               version := none
               homepage := p.homepage
               fromUrl := getUrl e
               type := ResultType.indicator }])) := by
  refine ⟨?_, ?_⟩
  · rw [getVersionViaFileHashes]
    rcases hfh : p.fileHashes with _ | ⟨q, rest⟩
    · rfl
    · rw [if_neg (by simp)]
      exact lookupFileHash_filter _ _ _
  · intro hpres
    constructor
    · intro v hv
      simp [indicatorStep, hpres, hv]
    · intro hv
      simp [indicatorStep, hpres, hv]

/-- Witness for C5's theorem: a plugin whose `file_hashes` pair matches
the entry URL and body digest yields an INDICATOR plus a VERSION result;
one whose digest does not match yields two INDICATOR results. -/
theorem fileHash_version_upgrade_witness :
    (indicatorStep
        ⟨⟨fun _ _ _ => none, fun _ _ _ => true, fun _ _ _ => none⟩,
         fun _ => none, fun _ => "d1", fun _ => none, "http://x/"⟩
        ⟨"foo", "h", false, [], [("app.js", [("1.0", "d1")])], [],
         [(MatcherKind.url, ["u"])], [], [], fun _ => ⟨none, ""⟩⟩
        ⟨⟨"http://x/app.js", "http://x/app.js", [], "B"⟩,
         EntryType.resource⟩).1
      = [{ name := "foo", version := none, homepage := "h",
           fromUrl := "http://x/app.js", type := ResultType.indicator },
         { name := "foo", version := some "1.0", homepage := "h",
           fromUrl := "http://x/app.js", type := ResultType.version }] ∧
    (indicatorStep
        ⟨⟨fun _ _ _ => none, fun _ _ _ => true, fun _ _ _ => none⟩,
         fun _ => none, fun _ => "d2", fun _ => none, "http://x/"⟩
        ⟨"foo", "h", false, [], [("app.js", [("1.0", "d1")])], [],
         [(MatcherKind.url, ["u"])], [], [], fun _ => ⟨none, ""⟩⟩
        ⟨⟨"http://x/app.js", "http://x/app.js", [], "B"⟩,
         EntryType.resource⟩).1
      = [{ name := "foo", version := none, homepage := "h",
           fromUrl := "http://x/app.js", type := ResultType.indicator },
         { name := "foo", version := none, homepage := "h",
           fromUrl := "http://x/app.js", type := ResultType.indicator }] := by
  constructor
  · exact ((fileHash_version_upgrade
      ⟨⟨fun _ _ _ => none, fun _ _ _ => true, fun _ _ _ => none⟩,
       fun _ => none, fun _ => "d1", fun _ => none, "http://x/"⟩
      ⟨"foo", "h", false, [], [("app.js", [("1.0", "d1")])], [],
       [(MatcherKind.url, ["u"])], [], [], fun _ => ⟨none, ""⟩⟩
      ⟨⟨"http://x/app.js", "http://x/app.js", [], "B"⟩,
       EntryType.resource⟩).2 (by decide)).1 "1.0" (by decide)
  · exact ((fileHash_version_upgrade
      ⟨⟨fun _ _ _ => none, fun _ _ _ => true, fun _ _ _ => none⟩,
       fun _ => none, fun _ => "d2", fun _ => none, "http://x/"⟩
      ⟨"foo", "h", false, [], [("app.js", [("1.0", "d1")])], [],
       [(MatcherKind.url, ["u"])], [], [], fun _ => ⟨none, ""⟩⟩
      ⟨⟨"http://x/app.js", "http://x/app.js", [], "B"⟩,
       EntryType.resource⟩).2 (by decide)).2 (by decide)

/-- C8 (confirmed): on a present generic plugin the emitted result, if
any, takes the name and homepage from the record returned by
`get_information` and the entry URL as `from_url`; nothing is emitted
when the record carries no name. -/
theorem genericStep_emission (c : Ctx) (p : Plugin) (e : TaggedEntry)
    (hpres : checkIndicatorPresence c.M p e = true) :
    (∀ n, (p.getInformation e).name = some n →
      genericStep c p e
        = [{ name := n
             version := none
             homepage := (p.getInformation e).homepage
             fromUrl := getUrl e
             type := ResultType.generic }]) ∧
    ((p.getInformation e).name = none → genericStep c p e = []) := by
  constructor
  · intro n hn
    simp [genericStep, hpres, hn]
  · intro hn
    simp [genericStep, hpres, hn]

/-- Witness for C8's theorem: a generic plugin whose record carries a
name emits one GENERIC result with the returned name and homepage; one
whose record carries no name emits nothing. -/
theorem genericStep_emission_witness :
    genericStep
        ⟨⟨fun _ _ _ => none, fun _ _ _ => true, fun _ _ _ => none⟩,
         fun _ => none, fun _ => "", fun _ => none, "http://x/"⟩
        ⟨"gen", "gh", false, [], [], [], [(MatcherKind.url, ["u"])], [], [],
         fun _ => ⟨some "wordpress", "http://wp"⟩⟩
        ⟨⟨"http://x/", "http://x/", [], ""⟩, EntryType.resource⟩
      = [{ name := "wordpress", version := none, homepage := "http://wp",
           fromUrl := "http://x/", type := ResultType.generic }] ∧
    genericStep
        ⟨⟨fun _ _ _ => none, fun _ _ _ => true, fun _ _ _ => none⟩,
         fun _ => none, fun _ => "", fun _ => none, "http://x/"⟩
        ⟨"gen", "gh", false, [], [], [], [(MatcherKind.url, ["u"])], [], [],
         fun _ => ⟨none, "http://wp"⟩⟩
        ⟨⟨"http://x/", "http://x/", [], ""⟩, EntryType.resource⟩
      = [] := by
  constructor
  · exact (genericStep_emission
      ⟨⟨fun _ _ _ => none, fun _ _ _ => true, fun _ _ _ => none⟩,
       fun _ => none, fun _ => "", fun _ => none, "http://x/"⟩
      ⟨"gen", "gh", false, [], [], [], [(MatcherKind.url, ["u"])], [], [],
       fun _ => ⟨some "wordpress", "http://wp"⟩⟩
      ⟨⟨"http://x/", "http://x/", [], ""⟩, EntryType.resource⟩
      (by decide)).1 "wordpress" rfl
  · exact (genericStep_emission
      ⟨⟨fun _ _ _ => none, fun _ _ _ => true, fun _ _ _ => none⟩,
       fun _ => none, fun _ => "", fun _ => none, "http://x/"⟩
      ⟨"gen", "gh", false, [], [], [], [(MatcherKind.url, ["u"])], [], [],
       fun _ => ⟨none, "http://wp"⟩⟩
      ⟨⟨"http://x/", "http://x/", [], ""⟩, EntryType.resource⟩
      (by decide)).2 rfl


theorem markFirstMatch_length (u : String) (l : List TaggedEntry) :
    ∀ l₂, markFirstMatch u l = some l₂ → l₂.length = l.length := by
  induction l with
  | nil => intro l₂ h; simp [markFirstMatch] at h
  | cons e es ih =>
    intro l₂ h
    rw [markFirstMatch] at h
    by_cases hu : e.entry.requestUrl == u
    · simp only [hu, if_pos] at h
      cases h
      simp
    · simp only [hu, if_neg, Bool.false_eq_true, not_false_iff] at h
      rcases Option.map_eq_some'.1 h with ⟨l₂', hrec, rfl⟩
      simp [ih l₂' hrec]

theorem markMainEntry_length (urljoin : String → String → String)
    (l : List Entry) : (markMainEntry urljoin l).length = l.length := by
  cases l with
  | nil => rfl
  | cons e0 rest =>
    rw [markMainEntry]
    cases hl : strTruthy (getLocation e0) with
    | none => simp
    | some loc =>
      simp only []
      cases hm : markFirstMatch (urljoin e0.requestUrl loc)
          (rest.map (tagEntry .resource)) with
      | some tagged2 =>
        simp only [List.length_cons]
        rw [markFirstMatch_length _ _ _ hm]
        simp
      | none => simp

theorem markFirstMatch_mem (u : String) (l : List TaggedEntry) :
    ∀ l₂, markFirstMatch u l = some l₂ →
      ∀ e ∈ l₂, e ∈ l ∨ ∃ e0 ∈ l, e = setEntryType .main e0 := by
  induction l with
  | nil => intro l₂ h; simp [markFirstMatch] at h
  | cons a es ih =>
    intro l₂ h
    rw [markFirstMatch] at h
    by_cases hu : a.entry.requestUrl == u
    · simp only [hu, if_pos] at h
      cases h
      intro e he
      rcases List.mem_cons.1 he with rfl | he2
      · exact Or.inr ⟨a, List.mem_cons_self _ _, rfl⟩
      · exact Or.inl (List.mem_cons_of_mem _ he2)
    · simp only [hu, if_neg, Bool.false_eq_true, not_false_iff] at h
      rcases Option.map_eq_some'.1 h with ⟨l₂', hrec, rfl⟩
      intro e he
      rcases List.mem_cons.1 he with rfl | he2
      · exact Or.inl (List.mem_cons_self _ _)
      · rcases ih l₂' hrec e he2 with h1 | ⟨e0, he0, rfl⟩
        · exact Or.inl (List.mem_cons_of_mem _ h1)
        · exact Or.inr ⟨e0, List.mem_cons_of_mem _ he0, rfl⟩

theorem markMainEntry_no_inline (urljoin : String → String → String)
    (l : List Entry) :
    ∀ e ∈ markMainEntry urljoin l, e.dtype ≠ EntryType.inlineScript := by
  cases l with
  | nil => intro e he; simp [markMainEntry] at he
  | cons e0 rest =>
    intro e he
    rw [markMainEntry] at he
    have tag_res : ∀ x ∈ rest.map (tagEntry .resource),
        x.dtype = EntryType.resource := by
      intro x hx
      rcases List.mem_map.1 hx with ⟨a, _, rfl⟩
      rfl
    cases hl : strTruthy (getLocation e0) with
    | none =>
      rw [hl] at he
      simp only [] at he
      rcases List.mem_cons.1 he with rfl | he2
      · simp [setEntryType, tagEntry]
      · rw [tag_res e he2]
        simp
    | some loc =>
      rw [hl] at he
      simp only [] at he
      cases hm : markFirstMatch (urljoin e0.requestUrl loc)
          (rest.map (tagEntry .resource)) with
      | some tagged2 =>
        rw [hm] at he
        simp only [] at he
        rcases List.mem_cons.1 he with rfl | he2
        · simp [tagEntry]
        · rcases markFirstMatch_mem _ _ _ hm e he2 with h1 | ⟨x, _, rfl⟩
          · rw [tag_res e h1]
            simp
          · simp [setEntryType]
      | none =>
        rw [hm] at he
        simp only [] at he
        rcases List.mem_cons.1 he with rfl | he2
        · simp [setEntryType, tagEntry]
        · rw [tag_res e he2]
          simp

/-- C9 (confirmed): the prepared sequence appends exactly one
INLINE_SCRIPT entry per inline script after all har-derived entries, in
original script order, each with request and response URL equal to the
requested URL and the script source as its body text; the har-derived
prefix contains no INLINE_SCRIPT entry, so the inline entries are exactly
the scripts' images. -/
theorem prepareHar_inline_scripts (urljoin : String → String → String)
    (requestedUrl : String) (har : List Entry) (scripts : List String) :
    (prepareHar urljoin requestedUrl har scripts).length
      = har.length + scripts.length ∧
    (prepareHar urljoin requestedUrl har scripts).drop har.length
      = scripts.map (scriptToHarEntry requestedUrl) ∧
    (∀ e ∈ (prepareHar urljoin requestedUrl har scripts).take har.length,
      e.dtype ≠ EntryType.inlineScript) ∧
    (prepareHar urljoin requestedUrl har scripts).countP
        (fun e => e.dtype == EntryType.inlineScript) = scripts.length ∧
    (∀ s, (scriptToHarEntry requestedUrl s).dtype = EntryType.inlineScript ∧
      (scriptToHarEntry requestedUrl s).entry.requestUrl = requestedUrl ∧
      (scriptToHarEntry requestedUrl s).entry.responseUrl = requestedUrl ∧
      (scriptToHarEntry requestedUrl s).entry.bodyText = s) := by
  have hlen : (if har.isEmpty then [] else markMainEntry urljoin har).length
      = har.length := by
    cases har with
    | nil => rfl
    | cons e0 rest =>
      rw [if_neg (by simp : ¬((e0 :: rest).isEmpty = true))]
      exact markMainEntry_length urljoin (e0 :: rest)
  have hno : ∀ e ∈ (if har.isEmpty then [] else markMainEntry urljoin har),
      e.dtype ≠ EntryType.inlineScript := by
    cases har with
    | nil => intro e he; simp at he
    | cons e0 rest =>
      rw [if_neg (by simp : ¬((e0 :: rest).isEmpty = true))]
      exact markMainEntry_no_inline urljoin (e0 :: rest)
  refine ⟨?_, ?_, ?_, ?_, ?_⟩
  · rw [prepareHar, List.length_append, hlen, List.length_map]
  · rw [prepareHar, ← hlen, List.drop_left]
  · rw [prepareHar, ← hlen, List.take_left]
    exact hno
  · rw [prepareHar, List.countP_append]
    rw [List.countP_eq_zero.2 (by intro e he; simpa using hno e he)]
    rw [Nat.zero_add]
    rw [List.countP_eq_length.2 ?_]
    · rw [List.length_map]
    · intro e he
      rcases List.mem_map.1 he with ⟨a, _, rfl⟩
      rfl
  · intro s
    exact ⟨rfl, rfl, rfl, rfl⟩

/-- Witness for C9's theorem at a concrete session. -/
theorem prepareHar_inline_scripts_witness :
    (prepareHar (fun _ l => l) "http://x"
        [⟨"http://x", "http://x", [], ""⟩] ["var a;", "var b;"]).length = 3 ∧
    (prepareHar (fun _ l => l) "http://x"
        [⟨"http://x", "http://x", [], ""⟩] ["var a;", "var b;"]).drop 1
      = ["var a;", "var b;"].map (scriptToHarEntry "http://x") ∧
    (⟨⟨"http://x", "http://x", [], ""⟩, EntryType.main⟩ : TaggedEntry).dtype
      ≠ EntryType.inlineScript := by
  refine ⟨?_, ?_, ?_⟩
  · exact (prepareHar_inline_scripts (fun _ l => l) "http://x"
      [⟨"http://x", "http://x", [], ""⟩] ["var a;", "var b;"]).1
  · exact (prepareHar_inline_scripts (fun _ l => l) "http://x"
      [⟨"http://x", "http://x", [], ""⟩] ["var a;", "var b;"]).2.1
  · exact (prepareHar_inline_scripts (fun _ l => l) "http://x"
      [⟨"http://x", "http://x", [], ""⟩] ["var a;", "var b;"]).2.2.1
      ⟨⟨"http://x", "http://x", [], ""⟩, EntryType.main⟩ (by decide)


theorem getHints_type (getPlugin : String → Option Plugin)
    (requestedUrl : String) (p : Plugin) :
    ∀ r ∈ getHints getPlugin requestedUrl p, r.type = ResultType.hint := by
  intro r hr
  rw [getHints, getHints_foldl, List.nil_append] at hr
  rcases List.mem_filterMap.1 hr with ⟨hintName, _, hmap⟩
  rcases Option.map_eq_some'.1 hmap with ⟨hp, _, rfl⟩
  rfl

/-- C10 (confirmed): `process_from_splash` uses the registry lookup
unguarded, so it fails (modelled as `none`) whenever some reported
software name has no registered plugin; when every name is registered it
emits, per reported software in order, exactly one VERSION result with
the requested URL as `from_url` immediately followed by that plugin's
hints. -/
theorem processFromSplash_spec (getPlugin : String → Option Plugin)
    (requestedUrl : String) (softwares : List (String × String)) :
    ((∃ s ∈ softwares, getPlugin s.1 = none) →
      processFromSplash getPlugin requestedUrl softwares = none) ∧
    ((∀ s ∈ softwares, (getPlugin s.1).isSome) →
      processFromSplash getPlugin requestedUrl softwares
        = some (softwares.flatMap (fun s =>
            match getPlugin s.1 with
            | some p =>
              { name := p.name
                version := some s.2
                homepage := p.homepage
                fromUrl := requestedUrl
                type := ResultType.version } :: getHints getPlugin requestedUrl p
            | none => []))) ∧
    (∀ l, processFromSplash getPlugin requestedUrl softwares = some l →
      l.countP (fun r => r.type == ResultType.version) = softwares.length) := by
  induction softwares with
  | nil =>
    refine ⟨?_, ?_, ?_⟩
    · rintro ⟨s, hs, _⟩
      simp at hs
    · intro _
      rfl
    · intro l hl
      cases hl
      rfl
  | cons sw rest ih =>
    rcases sw with ⟨sname, sversion⟩
    refine ⟨?_, ?_, ?_⟩
    · rintro ⟨s, hs, hnone⟩
      rcases List.mem_cons.1 hs with rfl | hs2
      · rw [processFromSplash, hnone]
      · rw [processFromSplash]
        cases hp : getPlugin sname with
        | none => rfl
        | some p =>
          rw [ih.1 ⟨s, hs2, hnone⟩]
    · intro hall
      rw [processFromSplash]
      cases hp : getPlugin sname with
      | none =>
        have := hall (sname, sversion) (List.mem_cons_self _ _)
        rw [hp] at this
        simp at this
      | some p =>
        rw [ih.2.1 (fun s hs => hall s (List.mem_cons_of_mem _ hs))]
        rw [List.flatMap_cons]
        simp [hp]
    · intro l hl
      rw [processFromSplash] at hl
      cases hp : getPlugin sname with
      | none =>
        rw [hp] at hl
        cases hl
      | some p =>
        rw [hp] at hl
        simp only [] at hl
        cases hrec : processFromSplash getPlugin requestedUrl rest with
        | none =>
          rw [hrec] at hl
          cases hl
        | some tl =>
          rw [hrec] at hl
          cases hl
          rw [List.cons_append, List.countP_cons, List.countP_append]
          rw [List.countP_eq_zero.2 ?hz]
          · rw [ih.2.2 tl hrec]
            simp
          · intro r hr
            rw [getHints_type getPlugin requestedUrl p r hr]
            simp

/-- Witness for C10's theorem: an unregistered name makes the pass fail,
and under the precondition the per-software VERSION result and hint
cascade are emitted in order. -/
theorem processFromSplash_spec_witness :
    processFromSplash (fun _ => none) "http://x" [("jquery", "2.1.0")]
      = none ∧
    processFromSplash
        (fun n =>
          if n = "jquery" then
            some ⟨"jquery", "http://jquery.com", false, ["jquery-ui"], [],
                  [], [], [], [], fun _ => ⟨none, ""⟩⟩
          else if n = "jquery-ui" then
            some ⟨"jquery-ui", "http://jqueryui.com", false, [], [],
                  [], [], [], [], fun _ => ⟨none, ""⟩⟩
          else none)
        "http://x" [("jquery", "2.1.0")]
      = some
          [{ name := "jquery", version := some "2.1.0",
             homepage := "http://jquery.com", fromUrl := "http://x",
             type := ResultType.version },
           { name := "jquery-ui", version := none,
             homepage := "http://jqueryui.com", fromUrl := "http://x",
             type := ResultType.hint }] := by
  constructor
  · exact (processFromSplash_spec (fun _ => none) "http://x"
      [("jquery", "2.1.0")]).1 ⟨("jquery", "2.1.0"), List.mem_cons_self _ _, rfl⟩
  · rw [(processFromSplash_spec
      (fun n =>
        if n = "jquery" then
          some ⟨"jquery", "http://jquery.com", false, ["jquery-ui"], [],
                [], [], [], [], fun _ => ⟨none, ""⟩⟩
        else if n = "jquery-ui" then
          some ⟨"jquery-ui", "http://jqueryui.com", false, [], [],
                [], [], [], [], fun _ => ⟨none, ""⟩⟩
        else none)
      "http://x" [("jquery", "2.1.0")]).2.1 ?_]
    · decide
    · intro s hs
      rcases List.mem_cons.1 hs with rfl | hs2
      · rfl
      · simp at hs2

end Detectem
